import Mathlib

/-!
# Verification of the Radial Branch Generator core

Shallow embedding of the procedural structure generator from the
"Radial Branch Generator" script (the second copy in `src/unnamed/part_000`,
lines 552-1526): the seeded Lehmer/Park-Miller RNG (`createRng`, line 905),
the radius law (`computeRadius`, line 933), the tree builder
(`generateStructure`, line 1465) and the timeline scheduler
(`applyBranchAnimation`, line 1318) together with the normalization carried
out by `setLineAnimationExpression` / `setNodeAnimationExpression`.

Modelling conventions:
* JS numbers are modelled as `ℚ`.  All arithmetic performed by the embedded
  code paths (integer LCG state below 2^46, additions, multiplications and the
  final divisions) is exact in IEEE doubles, so the rational model agrees with
  the source on every property stated here.
* The JS `%` operator (truncated remainder) is modelled by `jsRem`.
* Host-scene calls (layer creation, expressions) carry no data relevant to the
  claims and are dropped; the numeric fields they would receive
  (`angle`, `radius`, `startTime`, `endTime`, `animStart`, `animEnd`, the
  normalized percentages) are retained in the records below.
* Cartesian positions are `center + radius·(cos θ, sin θ)`, a pure function of
  `(angle, radius)`; claims about positions are stated through an arbitrary
  function of those two fields.

The file is organized as definitions first (the embedding), then theorems
(general lemmas, the claim theorems, and concrete witnesses).
-/

/-! ## Definitions: the embedded program -/


/-- JS `a % b` for `b > 0`: remainder truncated toward zero
(sign follows the dividend). -/
def jsRem (a b : ℤ) : ℤ :=
  if 0 ≤ a then a % b else -((-a) % b)

/-- `createRng` (line 905): seed normalization.
`var value = seed % 2147483647; if (value <= 0) value += 2147483646;`
Returns the initial internal state. -/
def createRng (seed : ℤ) : ℤ :=
  if jsRem seed 2147483647 ≤ 0 then jsRem seed 2147483647 + 2147483646
  else jsRem seed 2147483647

/-- One LCG state transition: `value = (value * 16807) % 2147483647`
(line 912).  States reached from `createRng` are nonnegative, where the
truncated and euclidean remainders agree. -/
def rngStep (s : ℤ) : ℤ :=
  jsRem (s * 16807) 2147483647

/-- `next()` (lines 911-914): step the state, return
`(value - 1) / 2147483646` together with the new state. -/
def rngNext (s : ℤ) : ℚ × ℤ :=
  (((rngStep s : ℚ) - 1) / 2147483646, rngStep s)

/-- `range(minValue, maxValue)` (lines 915-917):
`minValue + (maxValue - minValue) * this.next()`. -/
def rngRange (lo hi : ℚ) (s : ℤ) : ℚ × ℤ :=
  (lo + (hi - lo) * (rngNext s).1, (rngNext s).2)

/-- A well-formed Lehmer state: the nonzero residues mod 2147483647. -/
def ValidState (s : ℤ) : Prop :=
  1 ≤ s ∧ s ≤ 2147483646

instance : DecidablePred ValidState := fun s =>
  inferInstanceAs (Decidable (1 ≤ s ∧ s ≤ 2147483646))

/-- `computeRadius` (lines 933-938), returning the radius and the RNG state
after the (possible) jitter draw:
`max(5, baseRadius + (level-1)*radiusStep + jitter)`. -/
def computeRadius (level : ℕ) (baseRadius radiusStep radiusJitter : ℚ)
    (s : ℤ) : ℚ × ℤ :=
  if radiusJitter > 0 then
    (max 5 (baseRadius + ((level : ℚ) - 1) * radiusStep
        + (rngRange (-radiusJitter) radiusJitter s).1),
      (rngRange (-radiusJitter) radiusJitter s).2)
  else
    (max 5 (baseRadius + ((level : ℚ) - 1) * radiusStep), s)

/-- The configuration fields of `opts` (as assembled by `readOptions`,
lines 820-854) that the tree builder and the timeline scheduler read. -/
structure Opts where
  initialLines : ℕ
  levels : ℕ
  childrenPerNode : ℕ
  baseRadius : ℚ
  radiusStep : ℚ
  radiusJitter : ℚ
  angleJitter : ℚ
  branchSpread : ℚ
  lineDuration : ℚ
  nodeDuration : ℚ
  childStagger : ℚ
  randomOffset : ℚ
  seed : ℤ
  simultaneousRoot : Bool
  smoothFlow : Bool
deriving Repr, DecidableEq

/-- The data of one node created by `addNode` (lines 968-997): serial id,
level, polar placement and the parent link installed by
`addConnectionLine` (line 1114).  The root has no parent. -/
structure BNode where
  id : ℕ
  level : ℕ
  angle : ℚ
  radius : ℚ
  parentId : Option ℕ
deriving Repr, DecidableEq

/-- One connection line (edge), created by `addConnectionLine`
(lines 999-1117): serial index, parent node id, child node id. -/
structure Edge where
  id : ℕ
  parentId : ℕ
  childId : ℕ
deriving Repr, DecidableEq

/-- Mutable generation state of `generateStructure`: the RNG value and the
`nodeSerial` / `connectionSerial` counters (lines 1466-1470). -/
structure GenState where
  rng : ℤ
  nodeSerial : ℕ
  connectionSerial : ℕ
deriving Repr, DecidableEq

/-- The center node (line 1474): id 0, level 0, angle 0, radius 0. -/
def rootNode : BNode := ⟨0, 0, 0, 0, none⟩

/-- The angle jitter draw shared by both builder branches
(lines 1485 and 1501): a `range(-angleJitter, angleJitter)` draw when
`angleJitter > 0`, else 0 with the RNG untouched. -/
def angleJitterDraw (angleJitter : ℚ) (s : ℤ) : ℚ × ℤ :=
  if angleJitter > 0 then rngRange (-angleJitter) angleJitter s else (0, s)

/-- One iteration of the level-1 loop (lines 1483-1493): place child `i` at
`angleStep * i` plus jitter, radius `computeRadius(1)`, connect it to the
center node (id 0). -/
def makeLevel1Node (o : Opts) (angleStep : ℚ) (i : ℕ) (st : GenState) :
    BNode × Edge × GenState :=
  let j := angleJitterDraw o.angleJitter st.rng
  let r := computeRadius 1 o.baseRadius o.radiusStep o.radiusJitter j.2
  (⟨st.nodeSerial, 1, angleStep * i + j.1, r.1, some 0⟩,
   ⟨st.connectionSerial, 0, st.nodeSerial⟩,
   ⟨r.2, st.nodeSerial + 1, st.connectionSerial + 1⟩)

/-- The level-1 loop over `i = 0 .. initialLines-1`. -/
def buildLevel1 (o : Opts) (angleStep : ℚ) :
    List ℕ → GenState → List BNode × List Edge × GenState
  | [], st => ([], [], st)
  | i :: rest, st =>
    let x := makeLevel1Node o angleStep i st
    let y := buildLevel1 o angleStep rest x.2.2
    (x.1 :: y.1, x.2.1 :: y.2.1, y.2.2)

/-- One iteration of the inner deep-level loop (lines 1497-1508): child `c`
of `parent` at angular offset `branchSpread * normalized(c)` plus jitter. -/
def makeChildNode (o : Opts) (level : ℕ) (parent : BNode) (c : ℕ)
    (st : GenState) : BNode × Edge × GenState :=
  let normalized : ℚ :=
    if o.childrenPerNode > 1 then (c : ℚ) / ((o.childrenPerNode : ℚ) - 1) - 1/2
    else 0
  let j := angleJitterDraw o.angleJitter st.rng
  let r := computeRadius level o.baseRadius o.radiusStep o.radiusJitter j.2
  (⟨st.nodeSerial, level, parent.angle + o.branchSpread * normalized + j.1,
      r.1, some parent.id⟩,
   ⟨st.connectionSerial, parent.id, st.nodeSerial⟩,
   ⟨r.2, st.nodeSerial + 1, st.connectionSerial + 1⟩)

/-- The inner loop over `c = 0 .. childrenPerNode-1` for one parent. -/
def buildChildren (o : Opts) (level : ℕ) (parent : BNode) :
    List ℕ → GenState → List BNode × List Edge × GenState
  | [], st => ([], [], st)
  | c :: rest, st =>
    let x := makeChildNode o level parent c st
    let y := buildChildren o level parent rest x.2.2
    (x.1 :: y.1, x.2.1 :: y.2.1, y.2.2)

/-- The outer deep-level loop over the previous level's nodes
(lines 1495-1510). -/
def buildLevelN (o : Opts) (level : ℕ) :
    List BNode → GenState → List BNode × List Edge × GenState
  | [], st => ([], [], st)
  | p :: rest, st =>
    let x := buildChildren o level p (List.range o.childrenPerNode) st
    let y := buildLevelN o level rest x.2.2
    (x.1 ++ y.1, x.2.1 ++ y.2.1, y.2.2)

/-- The `for (level = 1; level <= opts.levels; level++)` loop
(lines 1477-1513), counting down the remaining levels.  Produces the list of
per-level node lists (levels ≥ 1), the edges in creation order, and the
final generation state. -/
def buildLoop (o : Opts) :
    ℕ → ℕ → List BNode → GenState → List (List BNode) × List Edge × GenState
  | 0, _, _, st => ([], [], st)
  | n + 1, level, parents, st =>
    let lv :=
      if level = 1 then
        buildLevel1 o
          (if o.initialLines > 0 then 360 / (o.initialLines : ℚ) else 0)
          (List.range o.initialLines) st
      else buildLevelN o level parents st
    let rest := buildLoop o n (level + 1) lv.1 lv.2.2
    (lv.1 :: rest.1, lv.2.1 ++ rest.2.1, rest.2.2)

/-- Everything `generateStructure` has computed right before
`applyBranchAnimation` is called: the per-level node lists (`nodes`),
the edges (`lineInfos`) and the RNG. -/
structure Geometry where
  levels : List (List BNode)
  edges : List Edge
  rngFinal : ℤ
deriving Repr, DecidableEq

/-- `generateStructure` geometry phase (lines 1465-1513): seed the RNG with
`opts.seed || 1`, create the center node (serial 0), then build the rings. -/
def generateGeometry (o : Opts) : Geometry :=
  let st0 : GenState := ⟨createRng (if o.seed = 0 then 1 else o.seed), 1, 0⟩
  let b := buildLoop o o.levels 1 [rootNode] st0
  ⟨[rootNode] :: b.1, b.2.1, b.2.2.rng⟩

/-- Total number of nodes created (root included). -/
def totalNodes (g : Geometry) : ℕ := (g.levels.map List.length).sum

/-- A node together with its descendants: the object graph formed by the
`children` references (`lineInfo.childNode`, pushed in creation order). -/
inductive RTree where
  | node : BNode → List RTree → RTree

mutual

/-- Number of nodes in a subtree. -/
def RTree.size : RTree → ℕ
  | .node _ cs => 1 + RTree.sizeList cs

/-- Total number of nodes in a forest. -/
def RTree.sizeList : List RTree → ℕ
  | [] => 0
  | t :: ts => RTree.size t + RTree.sizeList ts

end

/-- Reassemble the object graph from the per-level node lists: the children
of a node are the next level's nodes whose parent link points to it, in
creation order (the order `addConnectionLine` pushes them).  The `fuel`
argument makes the recursion through `List.map` structural; it is called
with the length of the level list, which the recursion never exhausts
(each step consumes one level and one unit of fuel). -/
def buildTreeFrom (fuel : ℕ) (b : BNode) (lvls : List (List BNode)) : RTree :=
  match fuel, lvls with
  | _, [] => .node b []
  | 0, _ => .node b []
  | fuel + 1, next :: more =>
    .node b ((next.filter (fun c => c.parentId = some b.id)).map
      (fun c => buildTreeFrom fuel c more))

/-- The tree rooted at the center node. -/
def geomTree (g : Geometry) : RTree :=
  buildTreeFrom (g.levels.drop 1).length rootNode (g.levels.drop 1)

/-- Everything the scheduler writes for one connection line and its child
node (lines 1352-1374), plus bookkeeping fields that merely record the
inputs of the computation (`childIndex` = loop index `i`, `isRootEdge` =
`current === rootNode`, `parentOut` = `current.outTime`, `randValue` = the
`range(-randomOffset, randomOffset)` draw or 0, `offset` = the final offset
applied). -/
structure EdgeSched where
  parentId : ℕ
  childId : ℕ
  childIndex : ℕ
  isRootEdge : Bool
  parentOut : ℚ
  randValue : ℚ
  offset : ℚ
  startTime : ℚ
  endTime : ℚ
  childAnimStart : ℚ
  childAnimEnd : ℚ
deriving Repr, DecidableEq

/-- Mutable scheduler state: the scheduler RNG value, the running
`maxTime`, and the line records produced so far (in visitation order). -/
structure SchedState where
  rng : ℤ
  maxTime : ℚ
  edges : List EdgeSched
deriving Repr, DecidableEq

/-- The body of the inner `for` loop (lines 1340-1377) for child `i` of the
current node:
`offset = childStagger * i`, `+ range(-randomOffset, randomOffset)` if
`randomOffset > 0`, forced to 0 for the root when `simultaneousRoot`;
`lineStart = current.outTime + offset`, `lineEnd = lineStart + lineDuration`;
`animStart = lineStart` (smoothFlow) or `lineEnd`;
`animEnd = animStart + max(nodeDuration, 0.0001)` clamped up to `lineEnd`
(smoothFlow) or `animStart + nodeDuration`.  Returns the line record and the
RNG state after the (possible) draw; the child's `outTime` is the record's
`childAnimEnd`. -/
def schedChild (o : Opts) (isRoot : Bool) (curId : ℕ) (curOut : ℚ) (i : ℕ)
    (child : BNode) (rng : ℤ) : EdgeSched × ℤ :=
  let d := if o.randomOffset > 0 then
      rngRange (-o.randomOffset) o.randomOffset rng
    else (0, rng)
  let offset := if isRoot && o.simultaneousRoot then 0
                else o.childStagger * (i : ℚ) + d.1
  let lineStart := curOut + offset
  let lineEnd := lineStart + o.lineDuration
  let animStart := if o.smoothFlow then lineStart else lineEnd
  let animEnd :=
    if o.smoothFlow then
      if animStart + max o.nodeDuration (1/10000) < lineEnd then lineEnd
      else animStart + max o.nodeDuration (1/10000)
    else animStart + o.nodeDuration
  (⟨curId, child.id, i, isRoot, curOut, d.1, offset, lineStart, lineEnd,
    animStart, animEnd⟩, d.2)

/-- The inner `for (i ...)` loop over the dequeued node's children
(lines 1340-1379): schedule each child line, raise `maxTime` when the
child's `outTime` exceeds it, and collect `(child subtree, child outTime)`
pairs to be queued. -/
def schedChildren (o : Opts) (isRoot : Bool) (curId : ℕ) (curOut : ℚ) :
    ℕ → List RTree → SchedState → List (RTree × ℚ) × SchedState
  | _, [], st => ([], st)
  | i, RTree.node b cs :: rest, st =>
    let x := schedChild o isRoot curId curOut i b st.rng
    let newMax := if x.1.childAnimEnd > st.maxTime then x.1.childAnimEnd
                  else st.maxTime
    let y := schedChildren o isRoot curId curOut (i + 1) rest
      ⟨x.2, newMax, st.edges ++ [x.1]⟩
    ((RTree.node b cs, x.1.childAnimEnd) :: y.1, y.2)

/-- The BFS queue loop `while (queue.length > 0)` (lines 1337-1380).
Each queue entry carries the subtree rooted at a scheduled node together
with that node's `outTime`.  The `fuel` argument realizes the termination
measure (every tree node is enqueued exactly once, so the loop performs
exactly as many iterations as the tree has nodes); the caller passes the
node count of the tree being scheduled, which the loop never exhausts. -/
def schedLoop (o : Opts) (rootId : ℕ) :
    ℕ → List (RTree × ℚ) → SchedState → SchedState
  | _, [], st => st
  | 0, _ :: _, st => st
  | fuel + 1, (RTree.node b cs, curOut) :: rest, st =>
    let x := schedChildren o (b.id == rootId) b.id curOut 0 cs st
    schedLoop o rootId fuel (rest ++ x.1) x.2

/-- The scheduler's output: the root's activation window, the per-line
records, the traversal's `maxTime` before and after the degenerate-time
fallback (lines 1382-1384), and the final RNG state. -/
structure SchedResult where
  rootAnimStart : ℚ
  rootAnimEnd : ℚ
  edges : List EdgeSched
  preMaxTime : ℚ
  maxTime : ℚ
  rngFinal : ℤ
deriving Repr, DecidableEq

/-- The scheduler RNG seed expression of line 1328:
`opts.seed ? opts.seed * 17 + 53 : 123987`. -/
def schedulerSeed (o : Opts) : ℤ :=
  if o.seed ≠ 0 then o.seed * 17 + 53 else 123987

/-- `applyBranchAnimation` (lines 1318-1404): seed the scheduler RNG with
`opts.seed ? opts.seed * 17 + 53 : 123987`, give the root the window
`[0, nodeDuration]`, start `maxTime` at the root's `outTime`, run the BFS,
then apply the fallback `maxTime = nodeDuration > 0 ? nodeDuration : 1`
when `maxTime <= 0`. -/
def applyBranchAnimation (o : Opts) (tree : RTree) : SchedResult :=
  match tree with
  | RTree.node b _ =>
    let st0 : SchedState :=
      ⟨createRng (schedulerSeed o), o.nodeDuration, []⟩
    let stF := schedLoop o b.id tree.size [(tree, o.nodeDuration)] st0
    let maxT := if stF.maxTime ≤ 0 then
        (if o.nodeDuration > 0 then o.nodeDuration else 1)
      else stF.maxTime
    ⟨0, o.nodeDuration, stF.edges, stF.maxTime, maxT, stF.rng⟩

/-- Normalized start percentage (lines 1229 and 1265):
`totalDuration > 0 ? (t / totalDuration) * 100 : 0`. -/
def startProgress (totalDuration t : ℚ) : ℚ :=
  if totalDuration > 0 then t / totalDuration * 100 else 0

/-- Normalized end percentage (lines 1230 and 1266):
`totalDuration > 0 ? (t / totalDuration) * 100 : 100`. -/
def endProgress (totalDuration t : ℚ) : ℚ :=
  if totalDuration > 0 then t / totalDuration * 100 else 100

/-- One full run: `generateStructure` (geometry phase) followed by
`applyBranchAnimation` on the generated tree (line 1516). -/
def runGenerator (o : Opts) : Geometry × SchedResult :=
  (generateGeometry o, applyBranchAnimation o (geomTree (generateGeometry o)))

/-- `geomSum x n = 1 + x + x^2 + ... + x^(n-1)` (`n` summands). -/
def geomSum (x : ℕ) : ℕ → ℕ
  | 0 => 0
  | n + 1 => 1 + x * geomSum x n

/-- The configuration of claim C2's concrete scenario: `seed=12345,
initialLines=4, levels=2, childrenPerNode=2, angleJitter=0,
branchSpread=60`; the remaining fields keep the dialog defaults, with
`radiusJitter` set to 0 (the scenario is about angles, which no radius
draw can influence). -/
def cfgC2 : Opts :=
  { initialLines := 4
    levels := 2
    childrenPerNode := 2
    baseRadius := 250
    radiusStep := 180
    radiusJitter := 0
    angleJitter := 0
    branchSpread := 60
    lineDuration := 35/100
    nodeDuration := 22/100
    childStagger := 5/100
    randomOffset := 6/100
    seed := 12345
    simultaneousRoot := false
    smoothFlow := true }

/-- A one-line, one-level configuration with `nodeDuration` and
`lineDuration` below the scheduler's `0.0001` floor. -/
def cfgTiny : Opts :=
  { cfgC2 with
    initialLines := 1
    levels := 1
    nodeDuration := 1/20000
    lineDuration := 1/20000
    childStagger := 0
    randomOffset := 0
    seed := 1 }

/-- A one-line, one-level configuration whose `randomOffset` (10 s) far
exceeds `nodeDuration` (0.05 s). -/
def cfgBigOffset : Opts :=
  { cfgC2 with
    initialLines := 1
    levels := 1
    lineDuration := 5/100
    nodeDuration := 5/100
    childStagger := 0
    randomOffset := 10
    seed := 1 }

/-- The configuration constraints of claim C3 (`randomOffset ≥ 0`,
`childStagger ≥ 0`, `nodeDuration > 0`, `lineDuration > 0`) together with
the two amendments that make the normalization bounds hold:
`randomOffset ≤ nodeDuration` (a larger random offset can push a line's
start before time 0) and a nonnegative seed (an exotic negative seed can
degenerate the scheduler RNG to the absorbing state 0, whose draws fall
below `-randomOffset`). -/
def ValidTiming (o : Opts) : Prop :=
  0 ≤ o.randomOffset ∧ 0 ≤ o.childStagger ∧ 0 < o.nodeDuration ∧
    0 < o.lineDuration ∧ o.randomOffset ≤ o.nodeDuration ∧ 0 ≤ o.seed

instance : DecidablePred ValidTiming := fun o =>
  inferInstanceAs (Decidable (_ ∧ _ ∧ _ ∧ _ ∧ _ ∧ _))

/-- The per-record portion of the scheduler invariant: all four absolute
times are nonnegative, ordered, and below the running `maxTime`. -/
def EdgeOK (mt : ℚ) (e : EdgeSched) : Prop :=
  0 ≤ e.startTime ∧ e.startTime ≤ e.endTime ∧ e.endTime ≤ mt ∧
    0 ≤ e.childAnimStart ∧ e.childAnimStart ≤ e.childAnimEnd ∧
    e.childAnimEnd ≤ mt

instance (mt : ℚ) : DecidablePred (EdgeOK mt) := fun e =>
  inferInstanceAs (Decidable (_ ∧ _ ∧ _ ∧ _ ∧ _ ∧ _))

/-- The observable shape of one scheduled line: everything except the
absolute times, with the applied offset retained only for non-root lines
(root lines may have theirs overridden by `simultaneousRoot`). -/
def edgeSig (e : EdgeSched) : ℕ × ℕ × ℕ × Bool × ℚ × Option ℚ :=
  (e.parentId, e.childId, e.childIndex, e.isRootEdge, e.randValue,
    if e.isRootEdge then none else some e.offset)

/-- Two configurations that agree on every scheduling field except
`simultaneousRoot` (and the seed, which the loop never reads). -/
def SameAnim (oA oB : Opts) : Prop :=
  oA.lineDuration = oB.lineDuration ∧ oA.nodeDuration = oB.nodeDuration ∧
    oA.childStagger = oB.childStagger ∧ oA.randomOffset = oB.randomOffset ∧
    oA.smoothFlow = oB.smoothFlow

/-- A ring-of-one configuration with zero durations and `smoothFlow` off,
driving the traversal's `maxTime` down to 0. -/
def cfgZero : Opts :=
  { cfgC2 with
    initialLines := 1
    levels := 1
    nodeDuration := 0
    lineDuration := 0
    childStagger := 0
    randomOffset := 0
    seed := 1
    smoothFlow := false }

/-! ## Theorems -/

/-- Bounds of the JS remainder for a positive modulus. -/
theorem jsRem_bounds (a b : ℤ) (hb : 0 < b) :
    -(b - 1) ≤ jsRem a b ∧ jsRem a b ≤ b - 1 := by
  unfold jsRem
  split
  · constructor
    · have h0 : 0 ≤ a % b := Int.emod_nonneg a (by omega)
      omega
    · have := Int.emod_lt_of_pos a hb
      omega
  · have h0 : 0 ≤ (-a) % b := Int.emod_nonneg (-a) (by omega)
    have h1 : (-a) % b < b := Int.emod_lt_of_pos (-a) hb
    omega

/-- For a nonnegative dividend the JS remainder is the euclidean remainder. -/
theorem jsRem_eq_emod {a : ℤ} (b : ℤ) (ha : 0 ≤ a) : jsRem a b = a % b := by
  unfold jsRem
  simp [ha]

/-- The normalized seed always lies in `[0, 2147483646]`. -/
theorem createRng_nonneg (seed : ℤ) :
    0 ≤ createRng seed ∧ createRng seed ≤ 2147483646 := by
  unfold createRng
  have h := jsRem_bounds seed 2147483647 (by norm_num)
  split <;> omega

/-- Unless the JS remainder of the seed is exactly `-2147483646` (which only
negative seeds congruent to 1 mod 2147483647 produce), normalization yields a
well-formed state. -/
theorem createRng_valid {seed : ℤ}
    (h : jsRem seed 2147483647 ≠ -2147483646) :
    ValidState (createRng seed) := by
  unfold createRng ValidState
  have hb := jsRem_bounds seed 2147483647 (by norm_num)
  split <;> omega

/-- Nonnegative seeds always normalize to a well-formed state. -/
theorem createRng_valid_of_nonneg {seed : ℤ} (h : 0 ≤ seed) :
    ValidState (createRng seed) := by
  refine createRng_valid ?_
  rw [jsRem_eq_emod _ h]
  have : 0 ≤ seed % 2147483647 := Int.emod_nonneg seed (by norm_num)
  omega

/-- The multiplier is invertible mod 2147483647:
`16807 * 1407677000 = 1 + 11017 * 2147483647`. -/
theorem bezout_16807 : (16807 : ℤ) * 1407677000 = 1 + 11017 * 2147483647 := by
  norm_num

/-- The LCG transition maps well-formed states to well-formed states: the
product of a nonzero residue with the invertible multiplier is again a
nonzero residue. -/
theorem rngStep_valid {s : ℤ} (h : ValidState s) : ValidState (rngStep s) := by
  obtain ⟨h1, h2⟩ := h
  unfold rngStep
  rw [jsRem_eq_emod _ (by positivity)]
  have hnn : 0 ≤ s * 16807 % 2147483647 :=
    Int.emod_nonneg _ (by norm_num)
  have hlt : s * 16807 % 2147483647 < 2147483647 :=
    Int.emod_lt_of_pos _ (by norm_num)
  have hne : s * 16807 % 2147483647 ≠ 0 := by
    intro h0
    have hdvd : (2147483647 : ℤ) ∣ s * 16807 := Int.dvd_of_emod_eq_zero h0
    have hdvd2 : (2147483647 : ℤ) ∣ s * 16807 * 1407677000 :=
      Dvd.dvd.mul_right hdvd 1407677000
    have hrw : s * 16807 * 1407677000 = s + s * 11017 * 2147483647 := by ring
    rw [hrw] at hdvd2
    have hmul : (2147483647 : ℤ) ∣ s * 11017 * 2147483647 :=
      dvd_mul_left 2147483647 (s * 11017)
    have hdvds : (2147483647 : ℤ) ∣ s := (Int.dvd_add_right hmul).mp
      (by rwa [add_comm] at hdvd2)
    obtain ⟨k, hk⟩ := hdvds
    rcases (by omega : k ≤ 0 ∨ 1 ≤ k) with hk0 | hk1
    · nlinarith
    · nlinarith
  exact ⟨by omega, by omega⟩

/-- From a well-formed state, `next()` returns a value in `[0, 1)`. -/
theorem rngNext_mem {s : ℤ} (h : ValidState s) :
    0 ≤ (rngNext s).1 ∧ (rngNext s).1 < 1 := by
  obtain ⟨h1, h2⟩ := rngStep_valid h
  have hq1 : (1 : ℚ) ≤ (rngStep s : ℚ) := by exact_mod_cast h1
  have hq2 : ((rngStep s : ℚ)) ≤ 2147483646 := by exact_mod_cast h2
  unfold rngNext
  constructor
  · exact div_nonneg (by linarith) (by norm_num)
  · rw [div_lt_one (by norm_num)]
    linarith

/-- From a well-formed state, `range(lo, hi)` returns a value in `[lo, hi)`
whenever `lo < hi`, and a value in `[lo, hi]` whenever `lo ≤ hi`. -/
theorem rngRange_mem {s : ℤ} (h : ValidState s) {lo hi : ℚ} (hle : lo ≤ hi) :
    lo ≤ (rngRange lo hi s).1 ∧ (rngRange lo hi s).1 ≤ hi ∧
      (lo < hi → (rngRange lo hi s).1 < hi) := by
  obtain ⟨hx0, hx1⟩ := rngNext_mem h
  unfold rngRange
  dsimp only
  refine ⟨?_, ?_, ?_⟩
  · nlinarith
  · nlinarith
  · intro hlt
    nlinarith

/-- Stepping preserves validity through any number of `next()` calls. -/
theorem rngStep_iterate_valid {s : ℤ} (h : ValidState s) (k : ℕ) :
    ValidState (rngStep^[k] s) := by
  induction k with
  | zero => simpa using h
  | succ n ih =>
    rw [Function.iterate_succ_apply']
    exact rngStep_valid ih

/-- The second component of `rngRange` is one LCG step. -/
theorem rngRange_state (lo hi : ℚ) (s : ℤ) :
    (rngRange lo hi s).2 = rngStep s := rfl

/-- `geomSum` is the geometric series written as a `Finset` sum. -/
theorem geomSum_eq (x : ℕ) : ∀ n : ℕ, geomSum x n = ∑ k ∈ Finset.range n, x ^ k
  | 0 => rfl
  | n + 1 => by
    rw [Finset.sum_range_succ']
    simp only [geomSum, geomSum_eq x n, pow_zero, pow_succ, Finset.mul_sum]
    rw [Nat.add_comm]
    congr 1
    refine Finset.sum_congr rfl fun k _ => ?_
    ring

/-- The level-1 loop creates one node per index. -/
theorem buildLevel1_length (o : Opts) (a : ℚ) :
    ∀ (l : List ℕ) (st : GenState),
      (buildLevel1 o a l st).1.length = l.length
  | [], _ => rfl
  | _ :: rest, st => by
    unfold buildLevel1
    simp only [List.length_cons]
    rw [buildLevel1_length o a rest]

/-- The inner deep-level loop creates one node per index. -/
theorem buildChildren_length (o : Opts) (lv : ℕ) (p : BNode) :
    ∀ (l : List ℕ) (st : GenState),
      (buildChildren o lv p l st).1.length = l.length
  | [], _ => rfl
  | _ :: rest, st => by
    unfold buildChildren
    simp only [List.length_cons]
    rw [buildChildren_length o lv p rest]

/-- A deep level creates `childrenPerNode` nodes per parent. -/
theorem buildLevelN_length (o : Opts) (lv : ℕ) :
    ∀ (ps : List BNode) (st : GenState),
      (buildLevelN o lv ps st).1.length = ps.length * o.childrenPerNode
  | [], _ => by simp [buildLevelN]
  | p :: rest, st => by
    unfold buildLevelN
    simp only [List.length_append, List.length_cons]
    rw [buildChildren_length, buildLevelN_length o lv rest, List.length_range]
    ring

/-- Total node count of the levels generated from a deep level on:
parents of size `P` contribute `P*c + P*c^2 + ... + P*c^n` nodes. -/
theorem buildLoop_sum_deep (o : Opts) :
    ∀ (n lv : ℕ) (ps : List BNode) (st : GenState), 2 ≤ lv →
      (((buildLoop o n lv ps st).1.map List.length).sum
        = ps.length * o.childrenPerNode * geomSum o.childrenPerNode n)
  | 0, _, _, _, _ => by simp [buildLoop, geomSum]
  | n + 1, lv, ps, st, hlv => by
    unfold buildLoop
    rw [if_neg (by omega)]
    simp only [List.map_cons, List.sum_cons]
    rw [buildLoop_sum_deep o n (lv + 1) _ _ (by omega), buildLevelN_length,
      geomSum]
    ring

/-- Total node count below the root: level 1 contributes `initialLines`
nodes, the deeper levels continue geometrically. -/
theorem buildLoop_sum_top (o : Opts) (n : ℕ) (ps : List BNode) (st : GenState) :
    ((buildLoop o (n + 1) 1 ps st).1.map List.length).sum
      = o.initialLines * geomSum o.childrenPerNode (n + 1) := by
  unfold buildLoop
  rw [if_pos rfl]
  simp only [List.map_cons, List.sum_cons]
  rw [buildLoop_sum_deep o n 2 _ _ (by omega), buildLevel1_length,
    List.length_range, geomSum]
  ring

/-- `maxTime` never decreases across one inner loop. -/
theorem schedChildren_maxTime_le (o : Opts) (isRoot : Bool) (curId : ℕ)
    (curOut : ℚ) :
    ∀ (i : ℕ) (ts : List RTree) (st : SchedState),
      st.maxTime ≤ ((schedChildren o isRoot curId curOut i ts st).2).maxTime
  | _, [], st => le_refl _
  | i, RTree.node b cs :: rest, st => by
    unfold schedChildren
    refine le_trans ?_
      (schedChildren_maxTime_le o isRoot curId curOut (i + 1) rest _)
    dsimp only
    split
    · next h => exact le_of_lt h
    · exact le_refl _

/-- `maxTime` never decreases across the whole BFS traversal. -/
theorem schedLoop_maxTime_le (o : Opts) (rootId : ℕ) :
    ∀ (fuel : ℕ) (q : List (RTree × ℚ)) (st : SchedState),
      st.maxTime ≤ (schedLoop o rootId fuel q st).maxTime
  | _, [], _ => by rw [schedLoop]
  | 0, _ :: _, _ => by rw [schedLoop]
  | fuel + 1, (RTree.node b cs, curOut) :: rest, st => by
    rw [schedLoop]
    exact le_trans
      (schedChildren_maxTime_le o (b.id == rootId) b.id curOut 0 cs st)
      (schedLoop_maxTime_le o rootId fuel _ _)

/-- C1 (amended): for every configuration with `initialLines ≥ 1`,
`levels ≥ 1`, `childrenPerNode ≥ 1`, the total number of nodes created by
the tree builder (root included) equals
`1 + initialLines * sum_{k=0}^{levels-1} childrenPerNode^k` (the spec's
upper summation limit `levels-2` undercounts: the builder creates one ring
of `initialLines * childrenPerNode^(l-1)` nodes for every level
`l = 1 .. levels`). -/
theorem claim_C1 (o : Opts) (h1 : 1 ≤ o.initialLines) (h2 : 1 ≤ o.levels)
    (h3 : 1 ≤ o.childrenPerNode) :
    totalNodes (generateGeometry o)
      = 1 + o.initialLines * ∑ k ∈ Finset.range o.levels, o.childrenPerNode ^ k := by
  rw [← geomSum_eq]
  unfold totalNodes generateGeometry
  dsimp only
  obtain ⟨m, hm⟩ : ∃ m, o.levels = m + 1 := ⟨o.levels - 1, by omega⟩
  rw [hm]
  simp only [List.map_cons, List.sum_cons, buildLoop_sum_top]
  simp [rootNode]

/-- Witness for C1 at the concrete scenario configuration:
`13 = 1 + 4 * (2^0 + 2^1)`. -/
theorem claim_C1_witness :
    1 ≤ cfgC2.initialLines ∧ 1 ≤ cfgC2.levels ∧ 1 ≤ cfgC2.childrenPerNode ∧
      totalNodes (generateGeometry cfgC2)
        = 1 + cfgC2.initialLines
            * ∑ k ∈ Finset.range cfgC2.levels, cfgC2.childrenPerNode ^ k :=
  ⟨by decide, by decide, by decide, claim_C1 cfgC2 (by decide) (by decide) (by decide)⟩

/-- C1 as literally stated is false: at `initialLines=4, levels=2,
childrenPerNode=2` the builder creates 13 nodes while
`1 + 4 * sum_{k=0}^{levels-2} 2^k = 5`. -/
theorem claim_C1_counterexample :
    1 ≤ cfgC2.initialLines ∧ 1 ≤ cfgC2.levels ∧ 1 ≤ cfgC2.childrenPerNode ∧
      totalNodes (generateGeometry cfgC2) = 13 ∧
      1 + cfgC2.initialLines
          * ∑ k ∈ Finset.range (cfgC2.levels - 1), cfgC2.childrenPerNode ^ k = 5 ∧
      totalNodes (generateGeometry cfgC2)
        ≠ 1 + cfgC2.initialLines
            * ∑ k ∈ Finset.range (cfgC2.levels - 1), cfgC2.childrenPerNode ^ k := by
  refine ⟨by decide, by decide, by decide, ?_, by decide, ?_⟩
  · rw [claim_C1 cfgC2 (by decide) (by decide) (by decide)]
    decide
  · rw [claim_C1 cfgC2 (by decide) (by decide) (by decide)]
    decide

/-- C5 (amended): with `radiusJitter = 0`, `radiusStep > 0` and
`baseRadius ≥ 5` (so the `max(5, _)` floor of `computeRadius` is inactive),
the radius strictly increases with the level. -/
theorem claim_C5 (baseRadius radiusStep : ℚ) (s1 s2 : ℤ) (k1 k2 : ℕ)
    (hb : 5 ≤ baseRadius) (hs : 0 < radiusStep) (h1 : 1 ≤ k1) (hlt : k1 < k2) :
    (computeRadius k1 baseRadius radiusStep 0 s1).1
      < (computeRadius k2 baseRadius radiusStep 0 s2).1 := by
  unfold computeRadius
  rw [if_neg (by norm_num), if_neg (by norm_num)]
  dsimp only
  have hc1 : (1 : ℚ) ≤ (k1 : ℚ) := by exact_mod_cast h1
  have hc2 : (k1 : ℚ) + 1 ≤ (k2 : ℚ) := by exact_mod_cast hlt
  rw [max_eq_right (by nlinarith), max_eq_right (by nlinarith)]
  nlinarith

/-- Witness for C5: `baseRadius = 10`, `radiusStep = 2`, levels 1 and 3.
The radii are 10 and 14. -/
theorem claim_C5_witness :
    (5 : ℚ) ≤ 10 ∧ (0 : ℚ) < 2 ∧ (1 : ℕ) ≤ 1 ∧ (1 : ℕ) < 3 ∧
      (computeRadius 1 10 2 0 7).1 < (computeRadius 3 10 2 0 7).1 :=
  ⟨by norm_num, by norm_num, by norm_num, by norm_num,
    claim_C5 10 2 7 7 1 3 (by norm_num) (by norm_num) (by norm_num) (by norm_num)⟩

/-- C5 as literally stated (only `baseRadius > 0` required) is false: with
`baseRadius = 1`, `radiusStep = 1`, `radiusJitter = 0` the `max(5, _)`
floor makes levels 1 and 2 both produce radius 5. -/
theorem claim_C5_counterexample :
    (0 : ℚ) < 1 ∧ (0 : ℚ) < 1 ∧ (1 : ℕ) < 2 ∧
      (computeRadius 1 1 1 0 1).1 = 5 ∧ (computeRadius 2 1 1 0 1).1 = 5 ∧
      ¬ (computeRadius 1 1 1 0 1).1 < (computeRadius 2 1 1 0 1).1 := by
  unfold computeRadius
  norm_num

/-- C6 (amended): for every integer seed whose JS remainder modulo
2147483647 is not `-2147483646` (all nonnegative seeds and all negative
seeds not congruent to 1 mod 2147483647), the normalized state lies in
`[1, 2147483646]`, stays there after every `next()` call, every `next()`
returns a value in `[0, 1)`, and `range(lo, hi)` returns a value in
`[lo, hi)` whenever `lo < hi`. -/
theorem claim_C6 (seed : ℤ) (k : ℕ) (lo hi : ℚ)
    (hseed : jsRem seed 2147483647 ≠ -2147483646) (hlh : lo < hi) :
    ValidState (createRng seed) ∧
      ValidState (rngStep^[k] (createRng seed)) ∧
      0 ≤ (rngNext (rngStep^[k] (createRng seed))).1 ∧
      (rngNext (rngStep^[k] (createRng seed))).1 < 1 ∧
      lo ≤ (rngRange lo hi (rngStep^[k] (createRng seed))).1 ∧
      (rngRange lo hi (rngStep^[k] (createRng seed))).1 < hi := by
  have h0 := createRng_valid hseed
  have hk := rngStep_iterate_valid h0 k
  have hn := rngNext_mem hk
  have hr := rngRange_mem hk (le_of_lt hlh)
  exact ⟨h0, hk, hn.1, hn.2, hr.1, hr.2.2 hlh⟩

/-- C6 as literally stated (every integer seed) is false: the seed
`-2147483646` normalizes to the absorbing state 0, from which `next()`
returns `-1/2147483646`, outside `[0, 1)`. -/
theorem claim_C6_counterexample :
    createRng (-2147483646) = 0 ∧ ¬ ValidState (createRng (-2147483646)) ∧
      (rngNext (createRng (-2147483646))).1 < 0 := by
  refine ⟨by decide, by decide, ?_⟩
  have h : createRng (-2147483646) = 0 := by decide
  rw [h]
  have h2 : rngStep 0 = 0 := by decide
  unfold rngNext
  rw [h2]
  norm_num

/-- Every line record in the inner loop's output state either was already
there or is the output of `schedChild` for some inputs. -/
theorem schedChildren_edges_sourced (o : Opts) (isRoot : Bool) (curId : ℕ)
    (curOut : ℚ) :
    ∀ (i : ℕ) (ts : List RTree) (st : SchedState),
      ∀ e ∈ ((schedChildren o isRoot curId curOut i ts st).2).edges,
        e ∈ st.edges ∨
          ∃ j b r, e = (schedChild o isRoot curId curOut j b r).1
  | _, [], _ => fun _ he => Or.inl he
  | i, RTree.node b cs :: rest, st => fun e he => by
    unfold schedChildren at he
    rcases schedChildren_edges_sourced o isRoot curId curOut (i + 1) rest _
        e he with h | h
    · rcases List.mem_append.mp h with h1 | h1
      · exact Or.inl h1
      · right
        refine ⟨i, b, st.rng, ?_⟩
        simpa using h1
    · exact Or.inr h

/-- Every line record scheduled by the BFS either was present initially or
is the output of `schedChild` for some inputs. -/
theorem schedLoop_edges_sourced (o : Opts) (rootId : ℕ) :
    ∀ (fuel : ℕ) (q : List (RTree × ℚ)) (st : SchedState),
      ∀ e ∈ (schedLoop o rootId fuel q st).edges,
        e ∈ st.edges ∨
          ∃ isRoot curId curOut j b r,
            e = (schedChild o isRoot curId curOut j b r).1
  | _, [], _ => fun _ he => Or.inl (by rwa [schedLoop] at he)
  | 0, _ :: _, _ => fun _ he => Or.inl (by rwa [schedLoop] at he)
  | fuel + 1, (RTree.node b cs, curOut) :: rest, st => fun e he => by
    rw [schedLoop] at he
    rcases schedLoop_edges_sourced o rootId fuel _ _ e he with h | h
    · rcases schedChildren_edges_sourced o (b.id == rootId) b.id curOut 0 cs st
          e h with h1 | h1
      · exact Or.inl h1
      · obtain ⟨j, nb, r, hj⟩ := h1
        exact Or.inr ⟨(b.id == rootId), b.id, curOut, j, nb, r, hj⟩
    · exact Or.inr h

/-- The smoothFlow end-time clamp of lines 1367-1370, written as a `max`. -/
theorem ite_lt_eq_max (u v : ℚ) : max u v = if u < v then v else u := by
  split
  · next h => exact max_eq_right (le_of_lt h)
  · next h => exact max_eq_left (not_lt.mp h)

/-- C4 (amended): when `smoothFlow` is on and `nodeDuration ≥ 0.0001` (the
floor `Math.max(nodeDuration, 0.0001)` of line 1367 is inactive), every
scheduled non-root node starts with its incoming edge's `drawStart` and
ends at `max(activationStart + nodeDuration, drawEnd)`. -/
theorem claim_C4 (o : Opts) (t : RTree)
    (hsf : o.smoothFlow = true) (hnd : 1/10000 ≤ o.nodeDuration) :
    ∀ e ∈ (applyBranchAnimation o t).edges,
      e.childAnimStart = e.startTime ∧
        e.childAnimEnd = max (e.childAnimStart + o.nodeDuration) e.endTime := by
  obtain ⟨b, cs⟩ := t
  intro e he
  unfold applyBranchAnimation at he
  dsimp only at he
  rcases schedLoop_edges_sourced o b.id _ _ _ e he with h | h
  · simp at h
  · obtain ⟨ir, ci, co, j, nb, r, rfl⟩ := h
    unfold schedChild
    simp only [hsf, if_true, max_eq_left hnd]
    exact ⟨trivial, (ite_lt_eq_max _ _).symm⟩

/-- The level-1 node maker never reads `opts.seed`. -/
theorem makeLevel1Node_seed (o : Opts) (z : ℤ) (a : ℚ) (i : ℕ)
    (st : GenState) :
    makeLevel1Node { o with seed := z } a i st = makeLevel1Node o a i st := rfl

/-- The level-1 loop never reads `opts.seed`. -/
theorem buildLevel1_seed (o : Opts) (z : ℤ) (a : ℚ) :
    ∀ (l : List ℕ) (st : GenState),
      buildLevel1 { o with seed := z } a l st = buildLevel1 o a l st
  | [], _ => rfl
  | i :: rest, st => by
    unfold buildLevel1
    simp only [makeLevel1Node_seed, buildLevel1_seed o z a rest]

/-- The deep-level node maker never reads `opts.seed`. -/
theorem makeChildNode_seed (o : Opts) (z : ℤ) (lv : ℕ) (p : BNode) (c : ℕ)
    (st : GenState) :
    makeChildNode { o with seed := z } lv p c st = makeChildNode o lv p c st :=
  rfl

/-- The inner deep-level loop never reads `opts.seed`. -/
theorem buildChildren_seed (o : Opts) (z : ℤ) (lv : ℕ) (p : BNode) :
    ∀ (l : List ℕ) (st : GenState),
      buildChildren { o with seed := z } lv p l st = buildChildren o lv p l st
  | [], _ => rfl
  | c :: rest, st => by
    unfold buildChildren
    simp only [makeChildNode_seed, buildChildren_seed o z lv p rest]

/-- The outer deep-level loop never reads `opts.seed`. -/
theorem buildLevelN_seed (o : Opts) (z : ℤ) (lv : ℕ) :
    ∀ (ps : List BNode) (st : GenState),
      buildLevelN { o with seed := z } lv ps st = buildLevelN o lv ps st
  | [], _ => rfl
  | p :: rest, st => by
    unfold buildLevelN
    simp only [buildChildren_seed, buildLevelN_seed o z lv rest]

/-- The level loop never reads `opts.seed`. -/
theorem buildLoop_seed (o : Opts) (z : ℤ) :
    ∀ (n lv : ℕ) (ps : List BNode) (st : GenState),
      buildLoop { o with seed := z } n lv ps st = buildLoop o n lv ps st
  | 0, _, _, _ => rfl
  | n + 1, lv, ps, st => by
    unfold buildLoop
    simp only [buildLevel1_seed, buildLevelN_seed, buildLoop_seed o z n]

/-- C9: the build phase seeds its RNG with `opts.seed || 1`, so seed 0 and
seed 1 produce identical geometry (ids, levels, angles, radii, parent
links, edges, and hence identical derived Cartesian positions, stated for
an arbitrary position function of angle and radius); the scheduler RNG,
however, is seeded with the constant 123987 when seed is 0, not with
`0 * 17 + 53`. -/
theorem claim_C9 (o : Opts) (posFn : ℚ → ℚ → ℚ × ℚ) :
    generateGeometry { o with seed := 0 } = generateGeometry { o with seed := 1 } ∧
      ((generateGeometry { o with seed := 0 }).levels.map
          (fun lvl => lvl.map (fun n => posFn n.angle n.radius)))
        = ((generateGeometry { o with seed := 1 }).levels.map
            (fun lvl => lvl.map (fun n => posFn n.angle n.radius))) ∧
      schedulerSeed { o with seed := 0 } = 123987 ∧
      (123987 : ℤ) ≠ 0 * 17 + 53 := by
  have hgeom : generateGeometry { o with seed := 0 }
      = generateGeometry { o with seed := 1 } := by
    unfold generateGeometry
    simp only [buildLoop_seed]
    norm_num
  refine ⟨hgeom, by rw [hgeom], by simp [schedulerSeed], by norm_num⟩

/-- C8: the normalization denominator is always strictly positive, and
whenever `maxTime` after the traversal is `≤ 0` the scheduler replaces it
with `max(nodeDuration, 1)` (the fallback expression of line 1383,
`nodeDuration > 0 ? nodeDuration : 1`, coincides with
`max(nodeDuration, 1)` there because `maxTime` starts at the root's
`outTime = nodeDuration` and never decreases, so the fallback only ever
fires with `nodeDuration ≤ 0`). -/
theorem claim_C8 (o : Opts) (t : RTree) :
    ((applyBranchAnimation o t).preMaxTime ≤ 0 →
        (applyBranchAnimation o t).maxTime = max o.nodeDuration 1) ∧
      0 < (applyBranchAnimation o t).maxTime := by
  obtain ⟨b, cs⟩ := t
  unfold applyBranchAnimation
  dsimp only
  have hmono : o.nodeDuration ≤ (schedLoop o b.id (RTree.node b cs).size
      [(RTree.node b cs, o.nodeDuration)]
      ⟨createRng (schedulerSeed o), o.nodeDuration, []⟩).maxTime :=
    schedLoop_maxTime_le o b.id _ _ _
  constructor
  · intro hpre
    rw [if_pos hpre, if_neg (not_lt.mpr (by linarith))]
    exact (max_eq_right (by linarith)).symm
  · split
    · split
      · next hnd => exact hnd
      · norm_num
    · next hpre => exact lt_of_not_le hpre

/-- `EdgeOK` survives any later growth of `maxTime`. -/
theorem EdgeOK.mono {mt mt' : ℚ} (h : mt ≤ mt') {e : EdgeSched}
    (he : EdgeOK mt e) : EdgeOK mt' e := by
  obtain ⟨a, b, c, d, f, g⟩ := he
  exact ⟨a, b, le_trans c h, d, f, le_trans g h⟩

/-- One `schedChild` step keeps the RNG well-formed and produces a record
whose times are nonnegative, ordered, and whose child window ends no
earlier than `nodeDuration` and no earlier than the line's own end. -/
theorem schedChild_ok (o : Opts) (h : ValidTiming o) (isRoot : Bool)
    (curId : ℕ) {curOut : ℚ} (hco : o.nodeDuration ≤ curOut) (i : ℕ)
    (child : BNode) {rng : ℤ} (hrng : ValidState rng) :
    ValidState (schedChild o isRoot curId curOut i child rng).2 ∧
      0 ≤ (schedChild o isRoot curId curOut i child rng).1.startTime ∧
      (schedChild o isRoot curId curOut i child rng).1.startTime
        ≤ (schedChild o isRoot curId curOut i child rng).1.endTime ∧
      (schedChild o isRoot curId curOut i child rng).1.endTime
        ≤ (schedChild o isRoot curId curOut i child rng).1.childAnimEnd ∧
      0 ≤ (schedChild o isRoot curId curOut i child rng).1.childAnimStart ∧
      (schedChild o isRoot curId curOut i child rng).1.childAnimStart
        ≤ (schedChild o isRoot curId curOut i child rng).1.childAnimEnd ∧
      o.nodeDuration
        ≤ (schedChild o isRoot curId curOut i child rng).1.childAnimEnd := by
  obtain ⟨hro, hstag, hnd, hld, hron, hseed⟩ := h
  have hr1 := rngRange_mem hrng
    (show -o.randomOffset ≤ o.randomOffset by linarith)
  have hv2 : ValidState (rngRange (-o.randomOffset) o.randomOffset rng).2 := by
    rw [rngRange_state]
    exact rngStep_valid hrng
  have hsi : 0 ≤ o.childStagger * (i : ℚ) :=
    mul_nonneg hstag (by positivity)
  have hmax : o.nodeDuration ≤ max o.nodeDuration (1/10000) := le_max_left _ _
  unfold schedChild
  dsimp only
  split_ifs with h1 h2 h3 h4 h5 h6 h7 h8 h9 h10 h11 h12 <;>
    refine ⟨?_, ?_, ?_, ?_, ?_, ?_, ?_⟩ <;>
    dsimp only <;>
    first
      | exact hv2
      | exact hrng
      | linarith [hr1.1, hr1.2.1]

/-- Invariant preservation through one inner children loop: the RNG stays
well-formed, `maxTime` only grows and stays `≥ nodeDuration`, every stored
record satisfies `EdgeOK`, and every queued child carries an `outTime`
that is `≥ nodeDuration`. -/
theorem schedChildren_inv (o : Opts) (h : ValidTiming o) (isRoot : Bool)
    (curId : ℕ) {curOut : ℚ} (hco : o.nodeDuration ≤ curOut) :
    ∀ (i : ℕ) (ts : List RTree) (st : SchedState),
      ValidState st.rng →
      o.nodeDuration ≤ st.maxTime →
      (∀ e ∈ st.edges, EdgeOK st.maxTime e) →
      ValidState ((schedChildren o isRoot curId curOut i ts st).2).rng ∧
        st.maxTime ≤ ((schedChildren o isRoot curId curOut i ts st).2).maxTime ∧
        o.nodeDuration ≤ ((schedChildren o isRoot curId curOut i ts st).2).maxTime ∧
        (∀ e ∈ ((schedChildren o isRoot curId curOut i ts st).2).edges,
          EdgeOK ((schedChildren o isRoot curId curOut i ts st).2).maxTime e) ∧
        (∀ p ∈ (schedChildren o isRoot curId curOut i ts st).1,
          o.nodeDuration ≤ p.2)
  | _, [], st => fun hrng hmt hedges =>
    ⟨hrng, le_refl _, hmt, hedges, by simp [schedChildren]⟩
  | i, RTree.node b cs :: rest, st => fun hrng hmt hedges => by
    obtain ⟨hcv, hst0, hste, hete, hcs0, hcse, hnde⟩ :=
      schedChild_ok o h isRoot curId hco i b hrng
    unfold schedChildren
    dsimp only
    set x := schedChild o isRoot curId curOut i b st.rng with hx
    set newMax := if x.1.childAnimEnd > st.maxTime then x.1.childAnimEnd
        else st.maxTime with hnm
    have hmle : st.maxTime ≤ newMax := by
      rw [hnm]; split
      · next hgt => exact le_of_lt hgt
      · exact le_refl _
    have hcle : x.1.childAnimEnd ≤ newMax := by
      rw [hnm]; split
      · exact le_refl _
      · next hgt => exact not_lt.mp hgt
    have hndm : o.nodeDuration ≤ newMax := le_trans hmt hmle
    have hedges' : ∀ e ∈ st.edges ++ [x.1], EdgeOK newMax e := by
      intro e he
      rcases List.mem_append.mp he with h1 | h1
      · exact (hedges e h1).mono hmle
      · have : e = x.1 := by simpa using h1
        subst this
        exact ⟨hst0, hste, le_trans hete hcle, hcs0, hcse, hcle⟩
    obtain ⟨a1, a2, a3, a4, a5⟩ :=
      schedChildren_inv o h isRoot curId hco (i + 1) rest
        ⟨x.2, newMax, st.edges ++ [x.1]⟩ hcv hndm hedges'
    refine ⟨a1, le_trans hmle a2, a3, a4, ?_⟩
    intro p hp
    rcases List.mem_cons.mp hp with h1 | h1
    · rw [h1]
      exact hnde
    · exact a5 p h1

/-- Invariant preservation through the whole BFS loop. -/
theorem schedLoop_inv (o : Opts) (h : ValidTiming o) (rootId : ℕ) :
    ∀ (fuel : ℕ) (q : List (RTree × ℚ)) (st : SchedState),
      ValidState st.rng →
      o.nodeDuration ≤ st.maxTime →
      (∀ p ∈ q, o.nodeDuration ≤ p.2) →
      (∀ e ∈ st.edges, EdgeOK st.maxTime e) →
      o.nodeDuration ≤ (schedLoop o rootId fuel q st).maxTime ∧
        ∀ e ∈ (schedLoop o rootId fuel q st).edges,
          EdgeOK (schedLoop o rootId fuel q st).maxTime e
  | _, [], st => fun _ hmt _ hedges => by
    rw [schedLoop]
    exact ⟨hmt, hedges⟩
  | 0, _ :: _, st => fun _ hmt _ hedges => by
    rw [schedLoop]
    exact ⟨hmt, hedges⟩
  | fuel + 1, (RTree.node b cs, curOut) :: rest, st =>
    fun hrng hmt hq hedges => by
    rw [schedLoop]
    have hco : o.nodeDuration ≤ curOut := hq _ (List.mem_cons_self _ _)
    obtain ⟨a1, a2, a3, a4, a5⟩ :=
      schedChildren_inv o h (b.id == rootId) b.id hco 0 cs st hrng hmt hedges
    refine schedLoop_inv o h rootId fuel _ _ a1 a3 ?_ a4
    intro p hp
    rcases List.mem_append.mp hp with h1 | h1
    · exact hq p (List.mem_cons_of_mem _ h1)
    · exact a5 p h1

/-- Normalized bounds: an absolute interval inside `[0, maxTime]` maps to a
percentage interval inside `[0, 100]` with its endpoints in order. -/
theorem progress_bounds {mt t1 t2 : ℚ} (hmt : 0 < mt) (h0 : 0 ≤ t1)
    (h12 : t1 ≤ t2) (h2 : t2 ≤ mt) :
    0 ≤ startProgress mt t1 ∧ startProgress mt t1 ≤ endProgress mt t2 ∧
      endProgress mt t2 ≤ 100 := by
  unfold startProgress endProgress
  rw [if_pos hmt, if_pos hmt]
  refine ⟨by positivity, ?_, ?_⟩
  · gcongr
  · have h1 : t2 / mt ≤ 1 := (div_le_one hmt).mpr h2
    linarith

/-- C3 (amended): for every configuration with `randomOffset ≥ 0`,
`childStagger ≥ 0`, `nodeDuration > 0`, `lineDuration > 0`, and
additionally `randomOffset ≤ nodeDuration` and `seed ≥ 0`, every
normalized node interval and every normalized edge interval produced by a
full run lies within `[0, 100]` with its end at or after its start, and
the normalization denominator is positive. -/
theorem claim_C3 (o : Opts) (hv : ValidTiming o) :
    0 < (runGenerator o).2.maxTime ∧
      (0 ≤ startProgress (runGenerator o).2.maxTime
          (runGenerator o).2.rootAnimStart ∧
        startProgress (runGenerator o).2.maxTime (runGenerator o).2.rootAnimStart
          ≤ endProgress (runGenerator o).2.maxTime (runGenerator o).2.rootAnimEnd ∧
        endProgress (runGenerator o).2.maxTime (runGenerator o).2.rootAnimEnd
          ≤ 100) ∧
      ∀ e ∈ (runGenerator o).2.edges,
        (0 ≤ startProgress (runGenerator o).2.maxTime e.startTime ∧
          startProgress (runGenerator o).2.maxTime e.startTime
            ≤ endProgress (runGenerator o).2.maxTime e.endTime ∧
          endProgress (runGenerator o).2.maxTime e.endTime ≤ 100) ∧
        (0 ≤ startProgress (runGenerator o).2.maxTime e.childAnimStart ∧
          startProgress (runGenerator o).2.maxTime e.childAnimStart
            ≤ endProgress (runGenerator o).2.maxTime e.childAnimEnd ∧
          endProgress (runGenerator o).2.maxTime e.childAnimEnd ≤ 100) := by
  obtain ⟨hro, hstag, hnd, hld, hron, hseed⟩ := hv
  have hsv : ValidState (createRng (schedulerSeed o)) := by
    apply createRng_valid_of_nonneg
    unfold schedulerSeed
    split
    · omega
    · norm_num
  unfold runGenerator
  dsimp only
  rcases htree : geomTree (generateGeometry o) with ⟨b, cs⟩
  unfold applyBranchAnimation
  dsimp only
  obtain ⟨hm, hedges⟩ :=
    schedLoop_inv o ⟨hro, hstag, hnd, hld, hron, hseed⟩ b.id
      (RTree.node b cs).size [(RTree.node b cs, o.nodeDuration)]
      ⟨createRng (schedulerSeed o), o.nodeDuration, []⟩
      hsv (le_refl _) (by simp) (by simp)
  rw [if_neg (not_le.mpr (lt_of_lt_of_le hnd hm))]
  have hmt : (0 : ℚ) < (schedLoop o b.id (RTree.node b cs).size
      [(RTree.node b cs, o.nodeDuration)]
      ⟨createRng (schedulerSeed o), o.nodeDuration, []⟩).maxTime :=
    lt_of_lt_of_le hnd hm
  refine ⟨hmt, progress_bounds hmt (le_refl 0) (le_of_lt hnd) hm, ?_⟩
  intro e he
  obtain ⟨e1, e2, e3, e4, e5, e6⟩ := hedges e he
  exact ⟨progress_bounds hmt e1 e2 e3, progress_bounds hmt e4 e5 e6⟩

/-- With `randomOffset > 0`, the inner loop advances the RNG exactly once
per child and appends exactly one record per child. -/
theorem schedChildren_rng (o : Opts) (hro : 0 < o.randomOffset)
    (isRoot : Bool) (curId : ℕ) (curOut : ℚ) :
    ∀ (i : ℕ) (ts : List RTree) (st : SchedState),
      (schedChildren o isRoot curId curOut i ts st).2.rng
          = rngStep^[ts.length] st.rng ∧
        (schedChildren o isRoot curId curOut i ts st).2.edges.length
          = st.edges.length + ts.length
  | _, [], st => ⟨rfl, rfl⟩
  | i, RTree.node b cs :: rest, st => by
    unfold schedChildren
    dsimp only
    have hx2 : (schedChild o isRoot curId curOut i b st.rng).2
        = rngStep st.rng := by
      unfold schedChild
      dsimp only
      rw [if_pos hro, rngRange_state]
    obtain ⟨r1, r2⟩ := schedChildren_rng o hro isRoot curId curOut (i + 1) rest
      ⟨(schedChild o isRoot curId curOut i b st.rng).2,
        if (schedChild o isRoot curId curOut i b st.rng).1.childAnimEnd
            > st.maxTime
          then (schedChild o isRoot curId curOut i b st.rng).1.childAnimEnd
          else st.maxTime,
        st.edges ++ [(schedChild o isRoot curId curOut i b st.rng).1]⟩
    constructor
    · rw [r1]
      dsimp only
      rw [hx2, List.length_cons, ← Function.iterate_succ_apply]
    · rw [r2]
      simp only [SchedState.edges, List.length_append, List.length_cons,
        List.length_singleton, List.length_nil]
      omega

/-- With `randomOffset > 0`, the BFS advances the RNG exactly once per
record it appends. -/
theorem schedLoop_rng (o : Opts) (hro : 0 < o.randomOffset) (rootId : ℕ) :
    ∀ (fuel : ℕ) (q : List (RTree × ℚ)) (st : SchedState),
      st.edges.length ≤ (schedLoop o rootId fuel q st).edges.length ∧
        (schedLoop o rootId fuel q st).rng
          = rngStep^[(schedLoop o rootId fuel q st).edges.length
              - st.edges.length] st.rng
  | _, [], st => by rw [schedLoop]; exact ⟨le_refl _, by simp⟩
  | 0, _ :: _, st => by rw [schedLoop]; exact ⟨le_refl _, by simp⟩
  | fuel + 1, (RTree.node b cs, curOut) :: rest, st => by
    rw [schedLoop]
    obtain ⟨c1, c2⟩ :=
      schedChildren_rng o hro (b.id == rootId) b.id curOut 0 cs st
    obtain ⟨l1, l2⟩ := schedLoop_rng o hro rootId fuel
      (rest ++ (schedChildren o (b.id == rootId) b.id curOut 0 cs st).1)
      (schedChildren o (b.id == rootId) b.id curOut 0 cs st).2
    constructor
    · omega
    · rw [l2, c1, ← Function.iterate_add_apply]
      congr 1
      omega

/-- One `schedChild` step under two `SameAnim` configurations, fed the
same RNG state but possibly different parent `outTime`s, advances the RNG
identically and produces records with the same signature. -/
theorem schedChild_sim {oA oB : Opts} (hs : SameAnim oA oB) (isRoot : Bool)
    (curId : ℕ) (coA coB : ℚ) (i : ℕ) (child : BNode) (rng : ℤ) :
    (schedChild oA isRoot curId coA i child rng).2
        = (schedChild oB isRoot curId coB i child rng).2 ∧
      edgeSig (schedChild oA isRoot curId coA i child rng).1
        = edgeSig (schedChild oB isRoot curId coB i child rng).1 := by
  obtain ⟨h1, h2, h3, h4, h5⟩ := hs
  unfold schedChild edgeSig
  dsimp only
  rw [h3, h4]
  refine ⟨rfl, ?_⟩
  cases isRoot <;> simp

/-- The inner loop under two `SameAnim` configurations queues the same
subtrees, advances the RNG identically, and produces signature-equal
record lists. -/
theorem schedChildren_sim {oA oB : Opts} (hs : SameAnim oA oB)
    (isRoot : Bool) (curId : ℕ) (coA coB : ℚ) :
    ∀ (i : ℕ) (ts : List RTree) (stA stB : SchedState),
      stA.rng = stB.rng →
      stA.edges.map edgeSig = stB.edges.map edgeSig →
      ((schedChildren oA isRoot curId coA i ts stA).1.map Prod.fst
          = (schedChildren oB isRoot curId coB i ts stB).1.map Prod.fst) ∧
        (schedChildren oA isRoot curId coA i ts stA).2.rng
          = (schedChildren oB isRoot curId coB i ts stB).2.rng ∧
        (schedChildren oA isRoot curId coA i ts stA).2.edges.map edgeSig
          = (schedChildren oB isRoot curId coB i ts stB).2.edges.map edgeSig
  | _, [], stA, stB => fun hr he => ⟨rfl, hr, he⟩
  | i, RTree.node b cs :: rest, stA, stB => fun hr he => by
    obtain ⟨hx2, hsig⟩ := schedChild_sim hs isRoot curId coA coB i b stB.rng
    unfold schedChildren
    dsimp only
    rw [hr]
    obtain ⟨p1, p2, p3⟩ := schedChildren_sim hs isRoot curId coA coB (i + 1)
      rest
      ⟨(schedChild oA isRoot curId coA i b stB.rng).2,
        if (schedChild oA isRoot curId coA i b stB.rng).1.childAnimEnd
            > stA.maxTime
          then (schedChild oA isRoot curId coA i b stB.rng).1.childAnimEnd
          else stA.maxTime,
        stA.edges ++ [(schedChild oA isRoot curId coA i b stB.rng).1]⟩
      ⟨(schedChild oB isRoot curId coB i b stB.rng).2,
        if (schedChild oB isRoot curId coB i b stB.rng).1.childAnimEnd
            > stB.maxTime
          then (schedChild oB isRoot curId coB i b stB.rng).1.childAnimEnd
          else stB.maxTime,
        stB.edges ++ [(schedChild oB isRoot curId coB i b stB.rng).1]⟩
      hx2
      (by simp only [List.map_append, List.map_cons, List.map_nil, he, hsig])
    refine ⟨?_, p2, p3⟩
    simp only [List.map_cons, p1]

/-- The BFS under two `SameAnim` configurations, fed queues carrying the
same subtrees and the same RNG state, advances the RNG identically and
produces signature-equal record lists. -/
theorem schedLoop_sim (oA oB : Opts) (hs : SameAnim oA oB) (rootId : ℕ) :
    ∀ (fuel : ℕ) (qA qB : List (RTree × ℚ)) (stA stB : SchedState),
      qA.map Prod.fst = qB.map Prod.fst →
      stA.rng = stB.rng →
      stA.edges.map edgeSig = stB.edges.map edgeSig →
      (schedLoop oA rootId fuel qA stA).rng
          = (schedLoop oB rootId fuel qB stB).rng ∧
        (schedLoop oA rootId fuel qA stA).edges.map edgeSig
          = (schedLoop oB rootId fuel qB stB).edges.map edgeSig
  | fuel, [], [], stA, stB => fun _ hr he => by
    rw [schedLoop, schedLoop]
    exact ⟨hr, he⟩
  | fuel, [], _ :: _, _, _ => fun hq _ _ => by simp at hq
  | fuel, _ :: _, [], _, _ => fun hq _ _ => by simp at hq
  | 0, _ :: _, _ :: _, stA, stB => fun _ hr he => by
    rw [schedLoop, schedLoop]
    exact ⟨hr, he⟩
  | fuel + 1, (tA, outA) :: restA, (tB, outB) :: restB, stA, stB =>
    fun hq hr he => by
    simp only [List.map_cons, List.cons.injEq] at hq
    obtain ⟨hhead, htail⟩ := hq
    subst hhead
    obtain ⟨b, cs⟩ := tA
    rw [schedLoop, schedLoop]
    obtain ⟨p1, p2, p3⟩ := schedChildren_sim hs (b.id == rootId) b.id
      outA outB 0 cs stA stB hr he
    exact schedLoop_sim oA oB hs rootId fuel _ _ _ _
      (by simp only [List.map_append, htail, p1]) p2 p3

/-- C10: with `randomOffset > 0` the scheduler consumes exactly one RNG
draw per line (root lines included, the draw happens before the
`simultaneousRoot` override); toggling `simultaneousRoot` therefore leaves
the per-line draw sequence and every non-root line's applied offset
unchanged (`edgeSig` equality), every line's `drawStart` stays
`parentOut + offset` in both runs, and in the `simultaneousRoot` run every
root line's applied offset is 0. -/
theorem claim_C10 (o : Opts) (t : RTree) (hro : 0 < o.randomOffset) :
    (applyBranchAnimation { o with simultaneousRoot := true } t).rngFinal
        = rngStep^[(applyBranchAnimation { o with simultaneousRoot := true }
              t).edges.length]
            (createRng (schedulerSeed o)) ∧
      (applyBranchAnimation { o with simultaneousRoot := false } t).rngFinal
        = rngStep^[(applyBranchAnimation { o with simultaneousRoot := false }
              t).edges.length]
            (createRng (schedulerSeed o)) ∧
      (applyBranchAnimation { o with simultaneousRoot := true } t).edges.map
          edgeSig
        = (applyBranchAnimation { o with simultaneousRoot := false }
            t).edges.map edgeSig ∧
      (∀ e ∈ (applyBranchAnimation { o with simultaneousRoot := true } t).edges,
        e.startTime = e.parentOut + e.offset) ∧
      (∀ e ∈ (applyBranchAnimation { o with simultaneousRoot := false } t).edges,
        e.startTime = e.parentOut + e.offset) ∧
      (∀ e ∈ (applyBranchAnimation { o with simultaneousRoot := true } t).edges,
        e.isRootEdge = true → e.offset = 0) := by
  obtain ⟨b, cs⟩ := t
  unfold applyBranchAnimation
  dsimp only
  have hstart : ∀ (oo : Opts) (e : EdgeSched),
      (e ∈ (schedLoop oo b.id (RTree.node b cs).size
          [(RTree.node b cs, oo.nodeDuration)]
          ⟨createRng (schedulerSeed oo), oo.nodeDuration, []⟩).edges) →
        e.startTime = e.parentOut + e.offset := by
    intro oo e he
    rcases schedLoop_edges_sourced oo b.id _ _ _ e he with h | h
    · simp at h
    · obtain ⟨ir, ci, co, j, nb, r, rfl⟩ := h
      rfl
  refine ⟨?_, ?_, ?_, hstart _, hstart _, ?_⟩
  · obtain ⟨l1, l2⟩ := schedLoop_rng { o with simultaneousRoot := true }
      hro b.id (RTree.node b cs).size
      [(RTree.node b cs, o.nodeDuration)]
      ⟨createRng (schedulerSeed o), o.nodeDuration, []⟩
    simpa using l2
  · obtain ⟨l1, l2⟩ := schedLoop_rng { o with simultaneousRoot := false }
      hro b.id (RTree.node b cs).size
      [(RTree.node b cs, o.nodeDuration)]
      ⟨createRng (schedulerSeed o), o.nodeDuration, []⟩
    simpa using l2
  · exact (schedLoop_sim { o with simultaneousRoot := true }
      { o with simultaneousRoot := false }
      ⟨rfl, rfl, rfl, rfl, rfl⟩ b.id (RTree.node b cs).size
      [(RTree.node b cs, o.nodeDuration)] [(RTree.node b cs, o.nodeDuration)]
      ⟨createRng (schedulerSeed o), o.nodeDuration, []⟩
      ⟨createRng (schedulerSeed o), o.nodeDuration, []⟩ rfl rfl rfl).2
  · intro e he
    rcases schedLoop_edges_sourced { o with simultaneousRoot := true } b.id
        _ _ _ e he with h | h
    · simp at h
    · obtain ⟨ir, ci, co, j, nb, r, rfl⟩ := h
      intro hre
      unfold schedChild at hre ⊢
      dsimp only at hre ⊢
      rw [hre]
      simp

/-- C7: the full pipeline is a pure function of the configuration — the
only randomness source is the seeded LCG created inside `generateGeometry`
and `applyBranchAnimation` — so two runs over the same seed and
configuration yield identical geometry (including any Cartesian positions
derived from angle and radius) and identical timelines. -/
theorem claim_C7 (o1 o2 : Opts) (h : o1 = o2) (posFn : ℚ → ℚ → ℚ × ℚ) :
    (runGenerator o1).1 = (runGenerator o2).1 ∧
      ((runGenerator o1).1.levels.map
          (fun lvl => lvl.map (fun n => n.angle)))
        = ((runGenerator o2).1.levels.map
            (fun lvl => lvl.map (fun n => n.angle))) ∧
      ((runGenerator o1).1.levels.map
          (fun lvl => lvl.map (fun n => n.radius)))
        = ((runGenerator o2).1.levels.map
            (fun lvl => lvl.map (fun n => n.radius))) ∧
      ((runGenerator o1).1.levels.map
          (fun lvl => lvl.map (fun n => posFn n.angle n.radius)))
        = ((runGenerator o2).1.levels.map
            (fun lvl => lvl.map (fun n => posFn n.angle n.radius))) ∧
      (runGenerator o1).2 = (runGenerator o2).2 := by
  subst h
  exact ⟨rfl, rfl, rfl, rfl, rfl⟩

section ConcreteEvaluation

attribute [local semireducible] Rat.add Rat.sub Rat.mul Rat.inv

/-- C2: for `seed=12345, initialLines=4, levels=2, childrenPerNode=2,
angleJitter=0, branchSpread=60` the builder creates exactly 13 nodes, the
four level-1 nodes have angles exactly `[0, 90, 180, 270]`, the level-1
node at angle 0 is the node with id 1, and its two level-2 children have
angles exactly `[-30, 30]`. -/
theorem claim_C2 :
    totalNodes (generateGeometry cfgC2) = 13 ∧
      ((generateGeometry cfgC2).levels.getD 1 []).map BNode.angle
        = [0, 90, 180, 270] ∧
      (((generateGeometry cfgC2).levels.getD 1 []).filter
          (fun n => n.angle = 0)).map BNode.id = [1] ∧
      (((generateGeometry cfgC2).levels.getD 2 []).filter
          (fun n => n.parentId = some 1)).map BNode.angle = [-30, 30] := by
  decide

/-- Witness for C3 at the dialog-default-like configuration `cfgC2`
(`randomOffset = 0.06 ≤ nodeDuration = 0.22`, seed 12345). -/
theorem claim_C3_witness :
    ValidTiming cfgC2 ∧
      (0 < (runGenerator cfgC2).2.maxTime ∧
        (0 ≤ startProgress (runGenerator cfgC2).2.maxTime
            (runGenerator cfgC2).2.rootAnimStart ∧
          startProgress (runGenerator cfgC2).2.maxTime
              (runGenerator cfgC2).2.rootAnimStart
            ≤ endProgress (runGenerator cfgC2).2.maxTime
                (runGenerator cfgC2).2.rootAnimEnd ∧
          endProgress (runGenerator cfgC2).2.maxTime
              (runGenerator cfgC2).2.rootAnimEnd ≤ 100) ∧
        ∀ e ∈ (runGenerator cfgC2).2.edges,
          (0 ≤ startProgress (runGenerator cfgC2).2.maxTime e.startTime ∧
            startProgress (runGenerator cfgC2).2.maxTime e.startTime
              ≤ endProgress (runGenerator cfgC2).2.maxTime e.endTime ∧
            endProgress (runGenerator cfgC2).2.maxTime e.endTime ≤ 100) ∧
          (0 ≤ startProgress (runGenerator cfgC2).2.maxTime e.childAnimStart ∧
            startProgress (runGenerator cfgC2).2.maxTime e.childAnimStart
              ≤ endProgress (runGenerator cfgC2).2.maxTime e.childAnimEnd ∧
            endProgress (runGenerator cfgC2).2.maxTime e.childAnimEnd ≤ 100)) :=
  ⟨by decide, claim_C3 cfgC2 (by decide)⟩

/-- C3 as literally stated is false: with `randomOffset = 10` far above
`nodeDuration = 0.05` (a configuration meeting all four stated validity
constraints), the single line's start time is negative and its normalized
start percentage falls below 0. -/
theorem claim_C3_counterexample :
    0 ≤ cfgBigOffset.randomOffset ∧ 0 ≤ cfgBigOffset.childStagger ∧
      0 < cfgBigOffset.nodeDuration ∧ 0 < cfgBigOffset.lineDuration ∧
      ¬ ∀ e ∈ (runGenerator cfgBigOffset).2.edges,
          0 ≤ startProgress (runGenerator cfgBigOffset).2.maxTime
              e.startTime := by
  refine ⟨by decide, by decide, by decide, by decide, by decide⟩

/-- Witness for C4 at `cfgC2` (smoothFlow on, `nodeDuration = 0.22`). -/
theorem claim_C4_witness :
    cfgC2.smoothFlow = true ∧ (1/10000 : ℚ) ≤ cfgC2.nodeDuration ∧
      ∀ e ∈ (applyBranchAnimation cfgC2
          (geomTree (generateGeometry cfgC2))).edges,
        e.childAnimStart = e.startTime ∧
          e.childAnimEnd = max (e.childAnimStart + cfgC2.nodeDuration)
            e.endTime :=
  ⟨by decide, by decide,
    claim_C4 cfgC2 (geomTree (generateGeometry cfgC2)) (by decide) (by decide)⟩

/-- C4 as literally stated (every `nodeDuration > 0`) is false: with
`nodeDuration = lineDuration = 0.00005` the scheduler's floor
`Math.max(nodeDuration, 0.0001)` makes the child's activation end
`0.00015`, while `max(activationStart + nodeDuration, drawEnd) = 0.0001`. -/
theorem claim_C4_counterexample :
    cfgTiny.smoothFlow = true ∧ 0 < cfgTiny.nodeDuration ∧
      ¬ ∀ e ∈ (applyBranchAnimation cfgTiny
          (geomTree (generateGeometry cfgTiny))).edges,
          e.childAnimStart = e.startTime ∧
            e.childAnimEnd = max (e.childAnimStart + cfgTiny.nodeDuration)
              e.endTime := by
  refine ⟨by decide, by decide, by decide⟩

/-- Witness for C8 at `cfgZero`: the traversal's `maxTime` is 0, and the
fallback produces `max(0, 1) = 1 > 0`. -/
theorem claim_C8_witness :
    (applyBranchAnimation cfgZero
        (geomTree (generateGeometry cfgZero))).preMaxTime ≤ 0 ∧
      (applyBranchAnimation cfgZero
          (geomTree (generateGeometry cfgZero))).maxTime
        = max cfgZero.nodeDuration 1 ∧
      0 < (applyBranchAnimation cfgZero
          (geomTree (generateGeometry cfgZero))).maxTime :=
  ⟨by decide,
    (claim_C8 cfgZero (geomTree (generateGeometry cfgZero))).1 (by decide),
    (claim_C8 cfgZero (geomTree (generateGeometry cfgZero))).2⟩

/-- Witness for C6 at seed 12345 after two steps, with `range(0, 1)`. -/
theorem claim_C6_witness :
    jsRem 12345 2147483647 ≠ -2147483646 ∧ (0 : ℚ) < 1 ∧
      (ValidState (createRng 12345) ∧
        ValidState (rngStep^[2] (createRng 12345)) ∧
        0 ≤ (rngNext (rngStep^[2] (createRng 12345))).1 ∧
        (rngNext (rngStep^[2] (createRng 12345))).1 < 1 ∧
        (0 : ℚ) ≤ (rngRange 0 1 (rngStep^[2] (createRng 12345))).1 ∧
        (rngRange 0 1 (rngStep^[2] (createRng 12345))).1 < 1) :=
  ⟨by decide, by decide, claim_C6 12345 2 0 1 (by decide) (by decide)⟩

/-- Witness for C10 at `cfgC2` (`randomOffset = 0.06 > 0`) on its own
generated tree. -/
theorem claim_C10_witness :
    0 < cfgC2.randomOffset ∧
      ((applyBranchAnimation { cfgC2 with simultaneousRoot := true }
            (geomTree (generateGeometry cfgC2))).edges.map edgeSig
        = (applyBranchAnimation { cfgC2 with simultaneousRoot := false }
            (geomTree (generateGeometry cfgC2))).edges.map edgeSig) :=
  ⟨by decide,
    (claim_C10 cfgC2 (geomTree (generateGeometry cfgC2)) (by decide)).2.2.1⟩

/-- Witness for C7 at `cfgC2` with the identity position function. -/
theorem claim_C7_witness :
    cfgC2 = cfgC2 ∧
      (runGenerator cfgC2).1 = (runGenerator cfgC2).1 ∧
      (runGenerator cfgC2).2 = (runGenerator cfgC2).2 :=
  ⟨rfl, (claim_C7 cfgC2 cfgC2 rfl (fun a r => (a, r))).1,
    (claim_C7 cfgC2 cfgC2 rfl (fun a r => (a, r))).2.2.2.2⟩

end ConcreteEvaluation
